import Mathlib

/-!
Shallow embedding of `dumper.go` from `go-pgdump`: the chunker, the per-table
script pipeline, the schema-dump coordinator, the CSV-export coordinator, and
a trace semantics for the mutex-guarded shared output writer.

Database access and the filesystem are modelled by an oracle structure
`DBEnv`: every `db.Query` made by a function of `dumper.go` is represented by
the list of rows it returns (or its error), and the collaborators declared
outside `dumper.go` (`getTables`, `getCreateTableStatement`,
`getTableDataCopyFormat`, `getTableDataAsCSV`, `writeHeader`, `writeFooter`,
`getServerVersion`) are opaque oracle fields, as the spec treats them.
Go's `(T, error)` return shape is rendered as `T × Option String` for the
functions of `dumper.go`, and oracle results as `Except String T`.
-/

/-- Model of `chunkSlice`'s loop body for a positive chunk size: the parameter
`k` stands for `chunkSize - 1`, so each produced chunk is `slice[i:i+k+1]`.
The offset by one makes the recursion's termination measure immediate. -/
def chunkSliceAux (k : Nat) : List String → List (List String)
  | [] => []
  | x :: xs => (x :: xs.take k) :: chunkSliceAux k (xs.drop k)
termination_by l => l.length
decreasing_by
  simp only [List.length_drop, List.length_cons]
  omega

/-- Model of `chunkSlice` (dumper.go:18-31): `chunkSize <= 0` is replaced by 1,
then the slice is cut into consecutive pieces of `chunkSize` elements, the last
piece possibly shorter. -/
def chunkSlice (slice : List String) (chunkSize : Int) : List (List String) :=
  let k : Int := if chunkSize ≤ 0 then 1 else chunkSize
  chunkSliceAux (k.toNat - 1) slice

/-- Model of the `Dumper` struct (dumper.go:33-37). -/
structure Dumper where
  ConnectionString : String
  Parallels : Int
  DumpVersion : String
deriving DecidableEq

/-- Model of `NewDumper` (dumper.go:39-45): non-positive `threads` becomes 50. -/
def NewDumper (connectionString : String) (threads : Int) : Dumper :=
  let dumpVersion := "0.2.1"
  let threads := if threads ≤ 0 then 50 else threads
  { ConnectionString := connectionString, Parallels := threads, DumpVersion := dumpVersion }

/-- Modelled from the spec: the `DumpInfo` record (the spec's DumpMetadata) is
declared outside `src/`; its four fields are taken from their uses at
dumper.go:60-65. -/
structure DumpInfo where
  DumpVersion : String
  ServerVersion : String
  CompleteTime : String
  ThreadsNumber : Int
deriving DecidableEq

/-- Oracle for the database, the clock and the filesystem, covering every
external call `dumper.go` makes.  Collaborators outside `src/` are modelled
from the spec (section 6) by their input/output shape; for the query functions
inside `dumper.go` the oracle returns the rows the query would yield (a scan
or iteration failure is folded into the query's error case, which is faithful
here because every such failure makes the enclosing function return
`("", err)`). -/
structure DBEnv where
  /-- error of `sql.Open`, if any -/
  openErr : Option String
  /-- error of `os.Create(outputFile)` in `DumpDatabase`, if any -/
  createFileErr : Option String
  /-- error of `os.Create(path.Join(outputDIR, outputFile))` in `DumpDBToCSV` -/
  createMetaErr : Option String
  /-- result of `getServerVersion` (errors are swallowed by that collaborator) -/
  serverVersion : String
  /-- `time.Now().Format(...)` -/
  now : String
  /-- Modelled from the spec: `writeHeader` writes a formatted metadata block
  for the given run metadata; the returned string is what it writes. -/
  writeHeaderRes : DumpInfo → Except String String
  /-- Modelled from the spec: `writeFooter`, as for `writeHeaderRes`. -/
  writeFooterRes : DumpInfo → Except String String
  /-- Modelled from the spec: `getTables` returns the filtered table list. -/
  getTablesRes : Except String (List String)
  /-- Modelled from the spec: `getCreateTableStatement` for a table. -/
  getCreateTableStatement : String → Except String String
  /-- Modelled from the spec: `getTableDataCopyFormat` for a table. -/
  getTableDataCopyFormat : String → Except String String
  /-- rows of the sequence query (dumper.go:250-263): (seq_creation, seq_owned, col_default) -/
  seqRows : String → Except String (List (String × String × String))
  /-- rows of the primary-key query (dumper.go:293-302): (conname, constraintdef) -/
  pkRows : String → Except String (List (String × String))
  /-- rows of the foreign-key query (dumper.go:331-340): (conname, constraintdef) -/
  fkRows : String → Except String (List (String × String))
  /-- rows of the index query (dumper.go:360-365): (indexname, indexdef) -/
  idxRows : String → Except String (List (String × String))
  /-- rows of the unique/check constraint query (dumper.go:413-423): (conname, contype, constraintdef) -/
  conRows : String → Except String (List (String × String × String))
  /-- rows of the trigger query (dumper.go:385-394): (tgname, triggerdef) -/
  trgRows : String → Except String (List (String × String))
  /-- rows of the view query (dumper.go:443-447): (table_name, view_definition) -/
  viewRows : Except String (List (String × String))
  /-- rows of the function query (dumper.go:467-473): (proname, functiondef) -/
  funcRows : Except String (List (String × String))
  /-- Modelled from the spec: `getTableDataAsCSV` returns the table's records. -/
  getTableDataAsCSV : String → Except String (List (List String))
  /-- error of `os.Create(path.Join(outputDIR, table+".csv"))`, if any -/
  createCsvFile : String → Option String
  /-- Modelled from the spec: `csv.NewWriter(f).WriteAll(records)` encodes the
  records into the file; on success the file holds the encoded text, on
  failure a partial prefix remains in the file and the error is returned. -/
  writeAllRes : String → List (List String) → Except (String × String) String

/-- Concatenation of the strings accumulated by a `strings.Builder` loop. -/
def strConcat (l : List String) : String :=
  l.foldr (fun a b => a ++ b) ""

/-- `mkDumpInfo` models the `DumpInfo{...}` literal built once per job
(dumper.go:60-65 and 131-136). -/
def mkDumpInfo (d : Dumper) (env : DBEnv) : DumpInfo :=
  { DumpVersion := d.DumpVersion
    ServerVersion := env.serverVersion
    CompleteTime := env.now
    ThreadsNumber := d.Parallels }

/-- Model of `scriptSequences` (dumper.go:246-287): per row, the sequence
creation statement and the column-default alteration, each on its own line. -/
def scriptSequences (env : DBEnv) (tableName : String) : String × Option String :=
  match env.seqRows tableName with
  | .error e => ("", some ("error querying sequences for table " ++ tableName ++ ": " ++ e))
  | .ok rows => (strConcat (rows.map fun r => r.1 ++ "\n" ++ r.2.2 ++ "\n"), none)

/-- Model of `scriptPrimaryKeys` (dumper.go:289-326). -/
def scriptPrimaryKeys (env : DBEnv) (tableName : String) : String × Option String :=
  match env.pkRows tableName with
  | .error e => ("", some ("error querying primary keys for table " ++ tableName ++ ": " ++ e))
  | .ok rows =>
    (strConcat (rows.map fun r =>
      "ALTER TABLE public." ++ tableName ++ " ADD CONSTRAINT " ++ r.1 ++ " " ++ r.2 ++ ";\n"), none)

/-- Model of `scriptForeignKeys` (dumper.go:329-355). -/
def scriptForeignKeys (env : DBEnv) (tableName : String) : String × Option String :=
  match env.fkRows tableName with
  | .error e => ("", some ("error querying foreign keys: " ++ e))
  | .ok rows =>
    (strConcat (rows.map fun r =>
      "ALTER TABLE public." ++ tableName ++ " ADD CONSTRAINT " ++ r.1 ++ " " ++ r.2 ++ ";\n"), none)

/-- Model of `scriptIndexes` (dumper.go:358-380). -/
def scriptIndexes (env : DBEnv) (tableName : String) : String × Option String :=
  match env.idxRows tableName with
  | .error e => ("", some ("error querying indexes: " ++ e))
  | .ok rows => (strConcat (rows.map fun r => r.2 ++ ";\n"), none)

/-- Model of `scriptTriggers` (dumper.go:382-409). -/
def scriptTriggers (env : DBEnv) (tableName : String) : String × Option String :=
  match env.trgRows tableName with
  | .error e => ("", some ("error querying triggers for table " ++ tableName ++ ": " ++ e))
  | .ok rows => (strConcat (rows.map fun r => r.2 ++ ";\n"), none)

/-- Model of `scriptConstraints` (dumper.go:411-438), the unique/check
constraint stage. -/
def scriptConstraints (env : DBEnv) (tableName : String) : String × Option String :=
  match env.conRows tableName with
  | .error e => ("", some ("error querying constraints: " ++ e))
  | .ok rows =>
    (strConcat (rows.map fun r =>
      "ALTER TABLE public." ++ tableName ++ " ADD CONSTRAINT " ++ r.1 ++ " " ++ r.2.2 ++ ";\n"), none)

/-- Model of `scriptViews` (dumper.go:440-462). -/
def scriptViews (env : DBEnv) : String × Option String :=
  match env.viewRows with
  | .error e => ("", some ("error querying views: " ++ e))
  | .ok rows =>
    (strConcat (rows.map fun r =>
      "CREATE OR REPLACE VIEW public." ++ r.1 ++ " AS " ++ r.2 ++ ";\n\n"), none)

/-- Model of `scriptFunctions` (dumper.go:464-488). -/
def scriptFunctions (env : DBEnv) : String × Option String :=
  match env.funcRows with
  | .error e => ("", some ("error querying functions: " ++ e))
  | .ok rows => (strConcat (rows.map fun r => r.2 ++ "\n\n"), none)

/-- Model of `scriptTable` (dumper.go:185-244): the eight stages in source
order, each appending its text plus a blank line to the buffer; the first
failing stage makes the whole function return `""` with a wrapped error.
(In the Go source the index stage's text is appended before its error test,
but on error `scriptIndexes` returned `""` and the whole buffer is discarded,
so the translation is unaffected.) -/
def scriptTable (env : DBEnv) (tableName : String) : String × Option String :=
  match env.getCreateTableStatement tableName with
  | .error e => ("", some ("error creating table statement for " ++ tableName ++ ": " ++ e))
  | .ok createStmt =>
    match scriptSequences env tableName with
    | (_, some e) => ("", some ("error scripting sequences for table " ++ tableName ++ ": " ++ e))
    | (seqStmts, none) =>
      match scriptPrimaryKeys env tableName with
      | (_, some e) => ("", some ("error scripting primary keys for table " ++ tableName ++ ": " ++ e))
      | (pkStmt, none) =>
        match scriptForeignKeys env tableName with
        | (_, some e) => ("", some ("error scripting foreign keys for table " ++ tableName ++ ": " ++ e))
        | (fkStmt, none) =>
          match scriptIndexes env tableName with
          | (_, some e) => ("", some ("error scripting index keys for table " ++ tableName ++ ": " ++ e))
          | (idxStmt, none) =>
            match scriptConstraints env tableName with
            | (_, some e) => ("", some ("error scripting constraints for table " ++ tableName ++ ": " ++ e))
            | (constStmt, none) =>
              match scriptTriggers env tableName with
              | (_, some e) => ("", some ("error scripting triggers for table " ++ tableName ++ ": " ++ e))
              | (triggerStmt, none) =>
                match env.getTableDataCopyFormat tableName with
                | .error e => ("", some ("error generating COPY statement for table " ++ tableName ++ ": " ++ e))
                | .ok copyStmt =>
                  (createStmt ++ "\n\n" ++ seqStmts ++ "\n\n" ++ pkStmt ++ "\n\n" ++ fkStmt ++ "\n\n"
                    ++ idxStmt ++ "\n\n" ++ constStmt ++ "\n\n" ++ triggerStmt ++ "\n\n" ++ copyStmt ++ "\n\n",
                   none)

/-- Output of the schema-dump worker loop for one completion order of a chunk
(dumper.go:85-96): each worker whose `scriptTable` succeeds appends its script
to the shared file, a worker whose `scriptTable` fails returns without
writing. -/
def writeChunk (env : DBEnv) (order : List String) : String :=
  strConcat (order.filterMap fun t =>
    match scriptTable env t with
    | (str, none) => some str
    | (_, some _) => none)

/-- Result of a `DumpDatabase` run: the bytes written to the output file so
far and the returned error, if any. -/
structure DumpOutcome where
  fileContent : String
  error : Option String
deriving DecidableEq

/-- Model of `DumpDatabase` (dumper.go:47-116).  The interleaving of the
concurrent per-table workers of each chunk is abstracted by `perm`, the order
in which the chunk's workers reach the mutex-guarded write; theorems quantify
over it (restricted to permutations of the chunk).  Error returns of
`file.WriteString` are ignored by the source, so writes always extend the
content here. -/
def dumpDatabase (d : Dumper) (env : DBEnv) (perm : List String → List String) : DumpOutcome :=
  match env.openErr with
  | some e => { fileContent := "", error := some e }
  | none =>
    match env.createFileErr with
    | some e => { fileContent := "", error := some e }
    | none =>
      let info := mkDumpInfo d env
      match env.writeHeaderRes info with
      | .error e => { fileContent := "", error := some e }
      | .ok hdr =>
        match env.getTablesRes with
        | .error e => { fileContent := hdr, error := some e }
        | .ok tables =>
          let body := strConcat ((chunkSlice tables d.Parallels).map fun chunk =>
            writeChunk env (perm chunk))
          match scriptViews env with
          | (_, some e) => { fileContent := hdr ++ body, error := some e }
          | (viewsSQL, none) =>
            match scriptFunctions env with
            | (_, some e) => { fileContent := hdr ++ body ++ viewsSQL, error := some e }
            | (funcsSQL, none) =>
              match env.writeFooterRes info with
              | .error e => { fileContent := hdr ++ body ++ viewsSQL ++ funcsSQL, error := some e }
              | .ok ftr =>
                { fileContent := hdr ++ body ++ viewsSQL ++ funcsSQL ++ ftr, error := none }

/-- Model of one CSV worker (dumper.go:158-176): fetch the records, create the
per-table file, write the records.  Returns the file it leaves behind (name
and content), if any, and its error, if any. -/
def csvWorker (env : DBEnv) (table : String) : Option (String × String) × Option String :=
  match env.getTableDataAsCSV table with
  | .error e => (none, some e)
  | .ok records =>
    match env.createCsvFile table with
    | some e => (none, some e)
    | none =>
      match env.writeAllRes table records with
      | .error pe => (some (table ++ ".csv", pe.1), some pe.2)
      | .ok content => (some (table ++ ".csv", content), none)

/-- One batch of the CSV pool (dumper.go:154-180).  The `errgroup` context is
discarded by the source (`g, _ :=`), so every worker of the batch runs to
completion and leaves its file effects; `Wait` then reports one failing
worker's error, modelled as the first in chunk order. -/
def runCsvChunk (env : DBEnv) (chunk : List String) : List (String × String) × Option String :=
  (chunk.filterMap fun t => (csvWorker env t).1,
   (chunk.filterMap fun t => (csvWorker env t).2).head?)

/-- Sequential batch loop of `DumpDBToCSV`: after a batch whose `Wait` returns
an error the remaining batches are not processed. -/
def runCsvChunks (env : DBEnv) : List (List String) → List (String × String) × Option String
  | [] => ([], none)
  | c :: cs =>
    match runCsvChunk env c with
    | (files, some e) => (files, some e)
    | (files, none) =>
      let rest := runCsvChunks env cs
      (files ++ rest.1, rest.2)

/-- Result of a `DumpDBToCSV` run: content of the metadata file, the per-table
files present in the destination directory, and the returned error. -/
structure CsvOutcome where
  metadata : String
  files : List (String × String)
  error : Option String
deriving DecidableEq

/-- Model of `DumpDBToCSV` (dumper.go:118-183): open, create the metadata
file, write header then footer immediately, list the tables, then run the
chunked worker pool with first-error abort. -/
def dumpDBToCSV (d : Dumper) (env : DBEnv) : CsvOutcome :=
  match env.openErr with
  | some e => { metadata := "", files := [], error := some e }
  | none =>
    match env.createMetaErr with
    | some e => { metadata := "", files := [], error := some e }
    | none =>
      let info := mkDumpInfo d env
      match env.writeHeaderRes info with
      | .error e => { metadata := "", files := [], error := some e }
      | .ok hdr =>
        match env.writeFooterRes info with
        | .error e => { metadata := hdr, files := [], error := some e }
        | .ok ftr =>
          match env.getTablesRes with
          | .error e => { metadata := hdr ++ ftr, files := [], error := some e }
          | .ok tables =>
            let r := runCsvChunks env (chunkSlice tables d.Parallels)
            { metadata := hdr ++ ftr, files := r.1, error := r.2 }

/-- Modelled from the spec: the stage order claimed in section 4.3 — create
statement, sequence script, constraint script(s) (primary key, foreign key,
unique/check), index script, trigger script, data-copy payload — with each
stage's text followed by a blank line.  This definition follows the spec's
words and exists only to be compared with `scriptTable`, which follows the
source. -/
def scriptTableSpecOrder (env : DBEnv) (tableName : String) : String × Option String :=
  match env.getCreateTableStatement tableName with
  | .error e => ("", some ("error creating table statement for " ++ tableName ++ ": " ++ e))
  | .ok createStmt =>
    match scriptSequences env tableName with
    | (_, some e) => ("", some e)
    | (seqStmts, none) =>
      match scriptPrimaryKeys env tableName with
      | (_, some e) => ("", some e)
      | (pkStmt, none) =>
        match scriptForeignKeys env tableName with
        | (_, some e) => ("", some e)
        | (fkStmt, none) =>
          match scriptConstraints env tableName with
          | (_, some e) => ("", some e)
          | (constStmt, none) =>
            match scriptIndexes env tableName with
            | (_, some e) => ("", some e)
            | (idxStmt, none) =>
              match scriptTriggers env tableName with
              | (_, some e) => ("", some e)
              | (triggerStmt, none) =>
                match env.getTableDataCopyFormat tableName with
                | .error e => ("", some e)
                | .ok copyStmt =>
                  (createStmt ++ "\n\n" ++ seqStmts ++ "\n\n" ++ pkStmt ++ "\n\n" ++ fkStmt ++ "\n\n"
                    ++ constStmt ++ "\n\n" ++ idxStmt ++ "\n\n" ++ triggerStmt ++ "\n\n" ++ copyStmt ++ "\n\n",
                   none)

/-- Status of one schema-dump worker with respect to the shared output file. -/
inductive WStatus where
  | idle : WStatus
  | writing : WStatus
  | done : WStatus
deriving DecidableEq

/-- State of the shared output stream and the `n` workers of one chunk
(dumper.go:76-98): who holds `mx`, the pieces appended so far (tagged with
the ghost identity of the appending worker), each worker's status, and the
pieces each worker still has to write. -/
structure WriterSys (n : Nat) where
  lock : Option (Fin n)
  out : List (Fin n × String)
  status : Fin n → WStatus
  remaining : Fin n → List String

/-- Small-step semantics of the mutex discipline of dumper.go:92-94: a worker
acquires `mx` when it is free, writes its block's pieces one at a time while
holding `mx`, and releases `mx` when its block is exhausted. -/
inductive WriterStep (n : Nat) : WriterSys n → WriterSys n → Prop
  | acquire (s : WriterSys n) (i : Fin n)
      (h1 : s.lock = none) (h2 : s.status i = WStatus.idle) :
      WriterStep n s { s with lock := some i, status := Function.update s.status i WStatus.writing }
  | write (s : WriterSys n) (i : Fin n) (p : String) (rest : List String)
      (h1 : s.lock = some i) (h2 : s.remaining i = p :: rest) :
      WriterStep n s { s with out := s.out ++ [(i, p)], remaining := Function.update s.remaining i rest }
  | release (s : WriterSys n) (i : Fin n)
      (h1 : s.lock = some i) (h2 : s.remaining i = []) :
      WriterStep n s { s with lock := none, status := Function.update s.status i WStatus.done }

/-- Initial writer state: the mutex free, nothing written, every worker idle
with its whole block still to write. -/
def WriterInit (n : Nat) (pieces : Fin n → List String) : WriterSys n :=
  { lock := none, out := [], status := fun _ => WStatus.idle, remaining := pieces }

/-- The contiguous run of tagged pieces worker `i` contributes to the output. -/
def writerBlock (n : Nat) (pieces : Fin n → List String) (i : Fin n) : List (Fin n × String) :=
  (pieces i).map fun p => (i, p)

/-- Invariant of the writer system: the output so far is the concatenation of
the full blocks of the workers already done (in some order `ds`), followed by
the partial block of the current lock holder, if any. -/
def WriterInv (n : Nat) (pieces : Fin n → List String) (s : WriterSys n) : Prop :=
  ∃ ds : List (Fin n), ds.Nodup ∧
    (∀ i, s.status i = WStatus.done ↔ i ∈ ds) ∧
    (∀ i, s.status i = WStatus.idle → s.remaining i = pieces i) ∧
    (match s.lock with
     | none =>
        (∀ i, s.status i ≠ WStatus.writing) ∧
        s.out = (ds.map (writerBlock n pieces)).flatten
     | some j =>
        s.status j = WStatus.writing ∧
        (∀ i, i ≠ j → s.status i ≠ WStatus.writing) ∧
        ∃ w, pieces j = w ++ s.remaining j ∧
          s.out = (ds.map (writerBlock n pieces)).flatten ++ w.map (fun p => (j, p)))

/-- Oracle in which every external call succeeds trivially: empty catalog,
empty table list, constant header and footer. -/
def trivEnv : DBEnv :=
  { openErr := none
    createFileErr := none
    createMetaErr := none
    serverVersion := "PostgreSQL 15.0"
    now := "2024-01-01 00:00:00 +0000 UTC"
    writeHeaderRes := fun _ => .ok "-- header\n"
    writeFooterRes := fun _ => .ok "-- footer\n"
    getTablesRes := .ok []
    getCreateTableStatement := fun _ => .ok ""
    getTableDataCopyFormat := fun _ => .ok ""
    seqRows := fun _ => .ok []
    pkRows := fun _ => .ok []
    fkRows := fun _ => .ok []
    idxRows := fun _ => .ok []
    conRows := fun _ => .ok []
    trgRows := fun _ => .ok []
    viewRows := .ok []
    funcRows := .ok []
    getTableDataAsCSV := fun _ => .ok []
    createCsvFile := fun _ => none
    writeAllRes := fun _ _ => .ok "" }

/-- Oracle for the stage-order counterexample: every stage of table `t`
produces a short distinguishable text. -/
def envOrd : DBEnv :=
  { trivEnv with
    getCreateTableStatement := fun _ => .ok "C"
    seqRows := fun _ => .ok [("Q", "", "R")]
    pkRows := fun _ => .ok [("p", "P")]
    fkRows := fun _ => .ok [("f", "F")]
    idxRows := fun _ => .ok [("i", "I")]
    conRows := fun _ => .ok [("u", "x", "U")]
    trgRows := fun _ => .ok [("g", "G")]
    getTableDataCopyFormat := fun _ => .ok "D" }

/-- Oracle in which only the view query fails. -/
def envViewsFail : DBEnv :=
  { trivEnv with viewRows := .error "boom" }

/-- Oracle with one table whose CSV record write fails after the per-table
file was created. -/
def envCsvWriteFail : DBEnv :=
  { trivEnv with
    getTablesRes := .ok ["t"]
    writeAllRes := fun _ _ => .error ("partial", "boom") }

/-- Oracle in which only the primary-key query fails. -/
def envPkFail : DBEnv :=
  { trivEnv with pkRows := fun _ => .error "boom" }

/-- Oracle with one table on which everything succeeds. -/
def envOneTable : DBEnv :=
  { trivEnv with getTablesRes := .ok ["t"] }

/-- First intermediate state of the one-worker witness trace: worker 0 holds
the lock and has written nothing yet. -/
def wSysA : WriterSys 1 :=
  { lock := some 0, out := [],
    status := Function.update (fun _ => WStatus.idle) 0 WStatus.writing,
    remaining := fun _ => ["A"] }

/-- Second intermediate state: worker 0 has written its piece, still holding
the lock. -/
def wSysB : WriterSys 1 :=
  { lock := some 0, out := [((0 : Fin 1), "A")],
    status := Function.update (fun _ => WStatus.idle) 0 WStatus.writing,
    remaining := Function.update (fun _ => ["A"]) 0 [] }

/-- Final state of the witness trace: the lock is free and worker 0 is done. -/
def wSysC : WriterSys 1 :=
  { lock := none, out := [((0 : Fin 1), "A")],
    status := Function.update (Function.update (fun _ => WStatus.idle) 0 WStatus.writing) 0 WStatus.done,
    remaining := Function.update (fun _ => ["A"]) 0 [] }

/-- Oracle with one table whose CSV record fetch fails, so its per-table file
is never created. -/
def envCsvFetchFail : DBEnv :=
  { trivEnv with
    getTablesRes := .ok ["t"]
    getTableDataAsCSV := fun _ => .error "boom" }

theorem chunkSliceAux_join (k : Nat) (l : List String) :
    (chunkSliceAux k l).flatten = l := by
  match l with
  | [] => simp [chunkSliceAux]
  | x :: xs =>
    rw [chunkSliceAux, List.flatten_cons, chunkSliceAux_join k (xs.drop k)]
    simp [List.take_append_drop]
termination_by l.length
decreasing_by
  simp only [List.length_drop, List.length_cons]
  omega

theorem chunkSliceAux_length (k : Nat) (l : List String) :
    (chunkSliceAux k l).length = (l.length + k) / (k + 1) := by
  match l with
  | [] =>
    rw [chunkSliceAux]
    simp [Nat.div_eq_of_lt]
  | x :: xs =>
    rw [chunkSliceAux, List.length_cons, chunkSliceAux_length k (xs.drop k)]
    simp only [List.length_drop, List.length_cons]
    rcases Nat.le_total k xs.length with h | h
    · have h1 : xs.length - k + k = xs.length := by omega
      have h2 : xs.length + 1 + k = xs.length + (k + 1) := by omega
      rw [h1, h2, Nat.add_div_right _ (Nat.succ_pos k)]
    · have h1 : xs.length - k = 0 := by omega
      have h2 : xs.length + 1 + k = xs.length + (k + 1) := by omega
      rw [h1, h2, Nat.add_div_right _ (Nat.succ_pos k), Nat.zero_add,
        Nat.div_eq_of_lt (by omega), Nat.div_eq_of_lt (by omega)]
termination_by l.length
decreasing_by
  simp only [List.length_drop, List.length_cons]
  omega

theorem chunkSliceAux_mem_length (k : Nat) (l : List String) (c : List String)
    (hc : c ∈ chunkSliceAux k l) : c.length ≤ k + 1 := by
  match l with
  | [] => simp [chunkSliceAux] at hc
  | x :: xs =>
    rw [chunkSliceAux] at hc
    rcases List.mem_cons.mp hc with h | h
    · subst h
      simp only [List.length_cons, List.length_take]
      omega
    · exact chunkSliceAux_mem_length k (xs.drop k) c h
termination_by l.length
decreasing_by
  simp only [List.length_drop, List.length_cons]
  omega

theorem chunkSliceAux_zero (l : List String) :
    chunkSliceAux 0 l = l.map (fun x => [x]) := by
  match l with
  | [] => simp [chunkSliceAux]
  | x :: xs =>
    rw [chunkSliceAux]
    simp only [List.take_zero, List.drop_zero]
    rw [chunkSliceAux_zero xs]
    simp
termination_by l.length
decreasing_by
  simp only [List.length_drop, List.length_cons]
  omega

theorem chunkSlice_join (slice : List String) (chunkSize : Int) :
    (chunkSlice slice chunkSize).flatten = slice := by
  unfold chunkSlice
  exact chunkSliceAux_join _ _

/-- C1: for batch size K > 0, `chunkSlice` returns ⌈N/K⌉ batches, each of size
at most K, whose in-order concatenation is the input; for K ≤ 0 it behaves
exactly as for K = 1, which yields singleton batches in input order. -/
theorem chunkSlice_spec (slice : List String) (K : Int) :
    (0 < K →
      (chunkSlice slice K).length = (slice.length + K.toNat - 1) / K.toNat ∧
      (∀ c ∈ chunkSlice slice K, c.length ≤ K.toNat) ∧
      (chunkSlice slice K).flatten = slice) ∧
    (K ≤ 0 →
      chunkSlice slice K = chunkSlice slice 1 ∧
      chunkSlice slice 1 = slice.map (fun x => [x])) := by
  constructor
  · intro hK
    have hk1 : 1 ≤ K.toNat := by omega
    have hne : ¬ K ≤ 0 := by omega
    unfold chunkSlice
    simp only [hne, if_false]
    refine ⟨?_, ?_, chunkSliceAux_join _ _⟩
    · rw [chunkSliceAux_length]
      have h1 : K.toNat - 1 + 1 = K.toNat := by omega
      have h2 : slice.length + (K.toNat - 1) = slice.length + K.toNat - 1 := by omega
      rw [h1, h2]
    · intro c hc
      have := chunkSliceAux_mem_length (K.toNat - 1) slice c hc
      omega
  · intro hK
    have hne : (1 : Int) ≤ 0 ↔ False := by decide
    constructor
    · unfold chunkSlice
      simp only [hK, if_true, hne, if_false]
    · unfold chunkSlice
      simp only [hne, if_false]
      have : ((1 : Int).toNat - 1) = 0 := by omega
      rw [this, chunkSliceAux_zero]

/-- C1 witness: concrete instance with 5 tables and batch size 2. -/
theorem chunkSlice_spec_witness :
    ((0 : Int) < 2 ∧
      (chunkSlice ["a", "b", "c", "d", "e"] 2).length = (5 + (2 : Int).toNat - 1) / (2 : Int).toNat ∧
      (∀ c ∈ chunkSlice ["a", "b", "c", "d", "e"] 2, c.length ≤ (2 : Int).toNat) ∧
      (chunkSlice ["a", "b", "c", "d", "e"] 2).flatten = ["a", "b", "c", "d", "e"]) ∧
    ((-3 : Int) ≤ 0 ∧ chunkSlice ["a", "b"] (-3) = chunkSlice ["a", "b"] 1) := by
  refine ⟨⟨by decide, ?_⟩, by decide, ((chunkSlice_spec ["a", "b"] (-3)).2 (by decide)).1⟩
  have h := (chunkSlice_spec ["a", "b", "c", "d", "e"] 2).1 (by decide)
  simpa using h

/-- C9: `NewDumper` stores a non-positive thread request as the default 50 and
a positive one unchanged; the remaining configuration is stored verbatim, and
the stored parallelism is always positive. -/
theorem NewDumper_spec (cs : String) (threads : Int) :
    ((threads ≤ 0 → (NewDumper cs threads).Parallels = 50) ∧
      (0 < threads → (NewDumper cs threads).Parallels = threads)) ∧
    0 < (NewDumper cs threads).Parallels ∧
    (NewDumper cs threads).ConnectionString = cs ∧
    (NewDumper cs threads).DumpVersion = "0.2.1" := by
  unfold NewDumper
  by_cases h : threads ≤ 0 <;> simp [h] <;> omega

/-- C9 witness: `NewDumper` at threads = -3 and at threads = 7. -/
theorem NewDumper_spec_witness :
    ((-3 : Int) ≤ 0 ∧ (NewDumper "conn" (-3)).Parallels = 50) ∧
    ((0 : Int) < 7 ∧ (NewDumper "conn" 7).Parallels = 7) :=
  ⟨⟨by decide, (NewDumper_spec "conn" (-3)).1.1 (by decide)⟩,
   ⟨by decide, (NewDumper_spec "conn" 7).1.2 (by decide)⟩⟩

theorem strConcat_nil : strConcat [] = "" := rfl

theorem strConcat_cons (a : String) (l : List String) :
    strConcat (a :: l) = a ++ strConcat l := rfl

theorem strConcat_append (l1 l2 : List String) :
    strConcat (l1 ++ l2) = strConcat l1 ++ strConcat l2 := by
  induction l1 with
  | nil => rw [List.nil_append, strConcat_nil, String.empty_append]
  | cons a l ih =>
    rw [List.cons_append, strConcat_cons, strConcat_cons, ih, String.append_assoc]

theorem scriptTable_success_eq (env : DBEnv) (t : String)
    (c sq pk fk idx cn tg dc : String)
    (h1 : env.getCreateTableStatement t = .ok c)
    (h2 : scriptSequences env t = (sq, none))
    (h3 : scriptPrimaryKeys env t = (pk, none))
    (h4 : scriptForeignKeys env t = (fk, none))
    (h5 : scriptIndexes env t = (idx, none))
    (h6 : scriptConstraints env t = (cn, none))
    (h7 : scriptTriggers env t = (tg, none))
    (h8 : env.getTableDataCopyFormat t = .ok dc) :
    scriptTable env t =
      (c ++ "\n\n" ++ sq ++ "\n\n" ++ pk ++ "\n\n" ++ fk ++ "\n\n" ++ idx ++ "\n\n"
        ++ cn ++ "\n\n" ++ tg ++ "\n\n" ++ dc ++ "\n\n", none) := by
  simp only [scriptTable, h1, h2, h3, h4, h5, h6, h7, h8]

/-- C4 (amended): on an all-stages-succeed table, `scriptTable` concatenates
the stage texts, each followed by a blank line, in the order: create
statement, sequences, primary keys, foreign keys, indexes, unique/check
constraints, triggers, data copy — the unique/check constraint stage runs
after the index stage, not before it. -/
theorem scriptTable_stage_order (env : DBEnv) (t : String)
    (c sq pk fk idx cn tg dc : String)
    (h1 : env.getCreateTableStatement t = .ok c)
    (h2 : scriptSequences env t = (sq, none))
    (h3 : scriptPrimaryKeys env t = (pk, none))
    (h4 : scriptForeignKeys env t = (fk, none))
    (h5 : scriptIndexes env t = (idx, none))
    (h6 : scriptConstraints env t = (cn, none))
    (h7 : scriptTriggers env t = (tg, none))
    (h8 : env.getTableDataCopyFormat t = .ok dc) :
    scriptTable env t =
      (c ++ "\n\n" ++ sq ++ "\n\n" ++ pk ++ "\n\n" ++ fk ++ "\n\n" ++ idx ++ "\n\n"
        ++ cn ++ "\n\n" ++ tg ++ "\n\n" ++ dc ++ "\n\n", none) :=
  scriptTable_success_eq env t c sq pk fk idx cn tg dc h1 h2 h3 h4 h5 h6 h7 h8

/-- C4 witness: a concrete table on which every stage succeeds with a
distinguishable text. -/
theorem scriptTable_stage_order_witness :
    scriptTable envOrd "t" =
      ("C" ++ "\n\n" ++ "Q\nR\n" ++ "\n\n" ++ "ALTER TABLE public.t ADD CONSTRAINT p P;\n" ++ "\n\n"
        ++ "ALTER TABLE public.t ADD CONSTRAINT f F;\n" ++ "\n\n" ++ "I;\n" ++ "\n\n"
        ++ "ALTER TABLE public.t ADD CONSTRAINT u U;\n" ++ "\n\n" ++ "G;\n" ++ "\n\n"
        ++ "D" ++ "\n\n", none) :=
  scriptTable_stage_order envOrd "t" "C" "Q\nR\n"
    "ALTER TABLE public.t ADD CONSTRAINT p P;\n" "ALTER TABLE public.t ADD CONSTRAINT f F;\n"
    "I;\n" "ALTER TABLE public.t ADD CONSTRAINT u U;\n" "G;\n" "D"
    rfl rfl rfl rfl rfl rfl rfl rfl

/-- C4 counterexample: with distinguishable stage texts the script produced by
the source's stage order differs from the script the spec's claimed order
(constraints before indexes) would produce, although every stage succeeded in
both. -/
theorem C4_counterexample :
    (scriptTable envOrd "t").2 = none ∧
    (scriptTableSpecOrder envOrd "t").2 = none ∧
    scriptTable envOrd "t" ≠ scriptTableSpecOrder envOrd "t" := by
  refine ⟨rfl, rfl, ?_⟩
  decide

/-- C10: on an all-stages-succeed table the returned script is exactly the
eight stage strings each followed by one blank-line separator, the separator
appearing even for an empty stage string, and the whole script ends with the
two newline characters of the last separator. -/
theorem scriptTable_separators (env : DBEnv) (t : String)
    (c sq pk fk idx cn tg dc : String)
    (h1 : env.getCreateTableStatement t = .ok c)
    (h2 : scriptSequences env t = (sq, none))
    (h3 : scriptPrimaryKeys env t = (pk, none))
    (h4 : scriptForeignKeys env t = (fk, none))
    (h5 : scriptIndexes env t = (idx, none))
    (h6 : scriptConstraints env t = (cn, none))
    (h7 : scriptTriggers env t = (tg, none))
    (h8 : env.getTableDataCopyFormat t = .ok dc) :
    (scriptTable env t).1 = strConcat ([c, sq, pk, fk, idx, cn, tg, dc].map fun s => s ++ "\n\n") ∧
    (scriptTable env t).2 = none ∧
    ∃ r, (scriptTable env t).1 = r ++ "\n\n" := by
  rw [scriptTable_success_eq env t c sq pk fk idx cn tg dc h1 h2 h3 h4 h5 h6 h7 h8]
  refine ⟨?_, rfl, ⟨_, rfl⟩⟩
  simp only [List.map_cons, List.map_nil, strConcat_cons, strConcat_nil,
    String.append_empty, String.append_assoc]

/-- C10 witness: a table whose eight stages all succeed with the empty string
still yields eight blank-line separators. -/
theorem scriptTable_separators_witness :
    (scriptTable trivEnv "t").1
        = strConcat (["", "", "", "", "", "", "", ""].map fun s => s ++ "\n\n") ∧
    (scriptTable trivEnv "t").2 = none ∧
    ∃ r, (scriptTable trivEnv "t").1 = r ++ "\n\n" :=
  scriptTable_separators trivEnv "t" "" "" "" "" "" "" "" ""
    rfl rfl rfl rfl rfl rfl rfl rfl

theorem scriptTable_error_empty (env : DBEnv) (t : String) :
    (scriptTable env t).2.isSome → (scriptTable env t).1 = "" := by
  unfold scriptTable
  repeat' split
  all_goals simp

/-- C2: the table pipeline is fail-fast and atomic.  Whenever `scriptTable`
reports an error its script component is the empty string; for each of the
eight stages, if the earlier stages succeed and that stage fails, the result
is entirely determined by that stage's error (so the later stages are never
consulted); and a failing table contributes no bytes to the chunk output the
coordinator writes. -/
theorem scriptTable_failfast (env : DBEnv) (t : String) :
    ((scriptTable env t).2.isSome → (scriptTable env t).1 = "") ∧
    (∀ e, env.getCreateTableStatement t = .error e →
      scriptTable env t = ("", some ("error creating table statement for " ++ t ++ ": " ++ e))) ∧
    (∀ c sq e, env.getCreateTableStatement t = .ok c →
      scriptSequences env t = (sq, some e) →
      scriptTable env t = ("", some ("error scripting sequences for table " ++ t ++ ": " ++ e))) ∧
    (∀ c sq pk e, env.getCreateTableStatement t = .ok c →
      scriptSequences env t = (sq, none) →
      scriptPrimaryKeys env t = (pk, some e) →
      scriptTable env t = ("", some ("error scripting primary keys for table " ++ t ++ ": " ++ e))) ∧
    (∀ c sq pk fk e, env.getCreateTableStatement t = .ok c →
      scriptSequences env t = (sq, none) →
      scriptPrimaryKeys env t = (pk, none) →
      scriptForeignKeys env t = (fk, some e) →
      scriptTable env t = ("", some ("error scripting foreign keys for table " ++ t ++ ": " ++ e))) ∧
    (∀ c sq pk fk idx e, env.getCreateTableStatement t = .ok c →
      scriptSequences env t = (sq, none) →
      scriptPrimaryKeys env t = (pk, none) →
      scriptForeignKeys env t = (fk, none) →
      scriptIndexes env t = (idx, some e) →
      scriptTable env t = ("", some ("error scripting index keys for table " ++ t ++ ": " ++ e))) ∧
    (∀ c sq pk fk idx cn e, env.getCreateTableStatement t = .ok c →
      scriptSequences env t = (sq, none) →
      scriptPrimaryKeys env t = (pk, none) →
      scriptForeignKeys env t = (fk, none) →
      scriptIndexes env t = (idx, none) →
      scriptConstraints env t = (cn, some e) →
      scriptTable env t = ("", some ("error scripting constraints for table " ++ t ++ ": " ++ e))) ∧
    (∀ c sq pk fk idx cn tg e, env.getCreateTableStatement t = .ok c →
      scriptSequences env t = (sq, none) →
      scriptPrimaryKeys env t = (pk, none) →
      scriptForeignKeys env t = (fk, none) →
      scriptIndexes env t = (idx, none) →
      scriptConstraints env t = (cn, none) →
      scriptTriggers env t = (tg, some e) →
      scriptTable env t = ("", some ("error scripting triggers for table " ++ t ++ ": " ++ e))) ∧
    (∀ c sq pk fk idx cn tg e, env.getCreateTableStatement t = .ok c →
      scriptSequences env t = (sq, none) →
      scriptPrimaryKeys env t = (pk, none) →
      scriptForeignKeys env t = (fk, none) →
      scriptIndexes env t = (idx, none) →
      scriptConstraints env t = (cn, none) →
      scriptTriggers env t = (tg, none) →
      env.getTableDataCopyFormat t = .error e →
      scriptTable env t = ("", some ("error generating COPY statement for table " ++ t ++ ": " ++ e))) ∧
    (∀ pre post, (scriptTable env t).2.isSome →
      writeChunk env (pre ++ t :: post) = writeChunk env (pre ++ post)) := by
  refine ⟨scriptTable_error_empty env t, ?_, ?_, ?_, ?_, ?_, ?_, ?_, ?_, ?_⟩
  · intro e h1
    simp only [scriptTable, h1]
  · intro c sq e h1 h2
    simp only [scriptTable, h1, h2]
  · intro c sq pk e h1 h2 h3
    simp only [scriptTable, h1, h2, h3]
  · intro c sq pk fk e h1 h2 h3 h4
    simp only [scriptTable, h1, h2, h3, h4]
  · intro c sq pk fk idx e h1 h2 h3 h4 h5
    simp only [scriptTable, h1, h2, h3, h4, h5]
  · intro c sq pk fk idx cn e h1 h2 h3 h4 h5 h6
    simp only [scriptTable, h1, h2, h3, h4, h5, h6]
  · intro c sq pk fk idx cn tg e h1 h2 h3 h4 h5 h6 h7
    simp only [scriptTable, h1, h2, h3, h4, h5, h6, h7]
  · intro c sq pk fk idx cn tg e h1 h2 h3 h4 h5 h6 h7 h8
    simp only [scriptTable, h1, h2, h3, h4, h5, h6, h7, h8]
  · intro pre post h
    rcases hst : scriptTable env t with ⟨s, o⟩
    rcases o with _ | e
    · rw [hst] at h
      simp at h
    · unfold writeChunk
      rw [List.filterMap_append, List.filterMap_append, List.filterMap_cons]
      simp [hst]

/-- C2 witness: a table whose primary-key stage fails yields the empty script
with the wrapped error, and contributes nothing to a chunk's output. -/
theorem scriptTable_failfast_witness :
    scriptTable envPkFail "t" =
      ("", some "error scripting primary keys for table t: error querying primary keys for table t: boom") ∧
    writeChunk envPkFail (["a"] ++ "t" :: ["b"]) = writeChunk envPkFail (["a"] ++ ["b"]) := by
  constructor
  · exact (scriptTable_failfast envPkFail "t").2.2.2.1 "" "" ""
      "error querying primary keys for table t: boom" rfl rfl rfl
  · exact (scriptTable_failfast envPkFail "t").2.2.2.2.2.2.2.2.2 ["a"] ["b"] rfl

/-- C3 (amended): a `DumpDatabase` run returns an error exactly when one of
connection open, output-file creation, header write, table-list retrieval,
view-script retrieval, function-script retrieval, or footer write fails; the
per-table pipeline results never influence the returned error. -/
theorem dumpDatabase_error_sources (d : Dumper) (env : DBEnv) (perm : List String → List String) :
    (dumpDatabase d env perm).error.isSome ↔
      (env.openErr.isSome ∨ env.createFileErr.isSome ∨
       (∃ e, env.writeHeaderRes (mkDumpInfo d env) = .error e) ∨
       (∃ e, env.getTablesRes = .error e) ∨
       (scriptViews env).2.isSome ∨ (scriptFunctions env).2.isSome ∨
       (∃ e, env.writeFooterRes (mkDumpInfo d env) = .error e)) := by
  rcases ho : env.openErr with _ | e1
  · rcases hc : env.createFileErr with _ | e2
    · rcases hh : env.writeHeaderRes (mkDumpInfo d env) with e3 | hdr
      · simp [dumpDatabase, ho, hc, hh]
      · rcases ht : env.getTablesRes with e4 | tables
        · simp [dumpDatabase, ho, hc, hh, ht]
        · rcases hv : scriptViews env with ⟨vs, ov⟩
          rcases ov with _ | e5
          · rcases hf : scriptFunctions env with ⟨fs, og⟩
            rcases og with _ | e6
            · rcases hft : env.writeFooterRes (mkDumpInfo d env) with e7 | ftr
              · simp [dumpDatabase, ho, hc, hh, ht, hv, hf, hft]
              · simp [dumpDatabase, ho, hc, hh, ht, hv, hf, hft]
            · simp [dumpDatabase, ho, hc, hh, ht, hv, hf]
          · simp [dumpDatabase, ho, hc, hh, ht, hv]
    · simp [dumpDatabase, ho, hc]
  · simp [dumpDatabase, ho]

/-- C3 counterexample: a run in which connection open, file creation, header
write, table listing and footer write all succeed, yet the job aborts with an
error, because the view query failed — so the four listed failure sources are
not the only aborting ones. -/
theorem C3_counterexample :
    envViewsFail.openErr = none ∧
    envViewsFail.createFileErr = none ∧
    envViewsFail.writeHeaderRes (mkDumpInfo (NewDumper "" 1) envViewsFail) = .ok "-- header\n" ∧
    envViewsFail.getTablesRes = .ok [] ∧
    envViewsFail.writeFooterRes (mkDumpInfo (NewDumper "" 1) envViewsFail) = .ok "-- footer\n" ∧
    (dumpDatabase (NewDumper "" 1) envViewsFail (fun c => c)).error = some "error querying views: boom" :=
  ⟨rfl, rfl, rfl, rfl, rfl, rfl⟩

theorem writeChunk_eq_filter (env : DBEnv) (l : List String) :
    writeChunk env l =
      strConcat ((l.filter fun t => (scriptTable env t).2.isNone).map
        fun t => (scriptTable env t).1) := by
  induction l with
  | nil => rfl
  | cons x xs ih =>
    rcases hx : scriptTable env x with ⟨s, o⟩
    rcases o with _ | e <;>
      simp [writeChunk, List.filterMap_cons, List.filter_cons, hx, strConcat_cons, ih] <;>
      simp [writeChunk] at ih <;> rw [ih]

theorem strConcat_flatten (L : List (List String)) :
    strConcat (L.map strConcat) = strConcat L.flatten := by
  induction L with
  | nil => rfl
  | cons c cs ih => simp [List.map_cons, List.flatten_cons, strConcat_cons, strConcat_append, ih]

theorem forall₂_perm_map (g h : List String → List String) (L : List (List String))
    (hgh : ∀ x ∈ L, (g x).Perm (h x)) :
    List.Forall₂ List.Perm (L.map g) (L.map h) := by
  induction L with
  | nil => exact List.Forall₂.nil
  | cons a l ih =>
    exact List.Forall₂.cons (hgh a (by simp)) (ih fun x hx => hgh x (by simp [hx]))

theorem perm_flatten_congr (L1 L2 : List (List String))
    (h : List.Forall₂ List.Perm L1 L2) : L1.flatten.Perm L2.flatten := by
  induction h with
  | nil => exact List.Perm.refl []
  | cons hab _ ih =>
    simp only [List.flatten_cons]
    exact hab.append ih

/-- C5: on a successful schema dump the output is exactly: the header block,
then one script block per successfully-processed table (in some order — one
block per table whose pipeline succeeded, none for any other), then the view
section, then the function section, then the footer block; and the header and
footer are produced from the same once-computed metadata value
`mkDumpInfo d env`. -/
theorem dumpDatabase_layout (d : Dumper) (env : DBEnv) (perm : List String → List String)
    (hperm : ∀ c, (perm c).Perm c)
    (hok : (dumpDatabase d env perm).error = none) :
    ∃ (hdr ftr vs fs : String) (tables order : List String),
      env.writeHeaderRes (mkDumpInfo d env) = .ok hdr ∧
      env.writeFooterRes (mkDumpInfo d env) = .ok ftr ∧
      env.getTablesRes = .ok tables ∧
      scriptViews env = (vs, none) ∧
      scriptFunctions env = (fs, none) ∧
      order.Perm (tables.filter fun t => (scriptTable env t).2.isNone) ∧
      (dumpDatabase d env perm).fileContent =
        hdr ++ strConcat (order.map fun t => (scriptTable env t).1) ++ vs ++ fs ++ ftr := by
  rcases ho : env.openErr with _ | e1
  swap
  · simp [dumpDatabase, ho] at hok
  rcases hc : env.createFileErr with _ | e2
  swap
  · simp [dumpDatabase, ho, hc] at hok
  rcases hh : env.writeHeaderRes (mkDumpInfo d env) with e3 | hdr
  · simp [dumpDatabase, ho, hc, hh] at hok
  rcases ht : env.getTablesRes with e4 | tables
  · simp [dumpDatabase, ho, hc, hh, ht] at hok
  rcases hv : scriptViews env with ⟨vs, ov⟩
  rcases ov with _ | e5
  swap
  · simp [dumpDatabase, ho, hc, hh, ht, hv] at hok
  rcases hf : scriptFunctions env with ⟨fs, og⟩
  rcases og with _ | e6
  swap
  · simp [dumpDatabase, ho, hc, hh, ht, hv, hf] at hok
  rcases hft : env.writeFooterRes (mkDumpInfo d env) with e7 | ftr
  · simp [dumpDatabase, ho, hc, hh, ht, hv, hf, hft] at hok
  refine ⟨hdr, ftr, vs, fs, tables,
    ((chunkSlice tables d.Parallels).map fun c =>
      (perm c).filter fun t => (scriptTable env t).2.isNone).flatten, rfl, rfl, rfl, rfl, rfl,
    ?_, ?_⟩
  · have h1 : ((chunkSlice tables d.Parallels).map fun c =>
        (perm c).filter fun t => (scriptTable env t).2.isNone).flatten.Perm
        ((chunkSlice tables d.Parallels).map fun c =>
          c.filter fun t => (scriptTable env t).2.isNone).flatten := by
      refine perm_flatten_congr _ _ (forall₂_perm_map _ _ _ ?_)
      intro c _
      exact (hperm c).filter _
    have h2 : ((chunkSlice tables d.Parallels).map fun c =>
        c.filter fun t => (scriptTable env t).2.isNone).flatten =
        (chunkSlice tables d.Parallels).flatten.filter
          fun t => (scriptTable env t).2.isNone := by
      rw [List.filter_flatten]
    rw [h2, chunkSlice_join] at h1
    exact h1
  · simp only [dumpDatabase, ho, hc, hh, ht, hv, hf, hft]
    have hbody : strConcat ((chunkSlice tables d.Parallels).map fun chunk =>
        writeChunk env (perm chunk)) =
        strConcat ((((chunkSlice tables d.Parallels).map fun c =>
          (perm c).filter fun t => (scriptTable env t).2.isNone).flatten).map
            fun t => (scriptTable env t).1) := by
      simp only [writeChunk_eq_filter]
      have h3 : (((chunkSlice tables d.Parallels).map fun c =>
          (perm c).filter fun t => (scriptTable env t).2.isNone).flatten).map
            (fun t => (scriptTable env t).1) =
          ((chunkSlice tables d.Parallels).map fun c =>
            ((perm c).filter fun t => (scriptTable env t).2.isNone).map
              fun t => (scriptTable env t).1).flatten := by
        rw [List.map_flatten, List.map_map]
        rfl
      rw [h3, ← strConcat_flatten, List.map_map]
      rfl
    rw [hbody]

/-- C5 witness: a one-table schema dump through the identity completion
order. -/
theorem dumpDatabase_layout_witness :
    ∃ (hdr ftr vs fs : String) (tables order : List String),
      envOneTable.writeHeaderRes (mkDumpInfo (NewDumper "" 1) envOneTable) = .ok hdr ∧
      envOneTable.writeFooterRes (mkDumpInfo (NewDumper "" 1) envOneTable) = .ok ftr ∧
      envOneTable.getTablesRes = .ok tables ∧
      scriptViews envOneTable = (vs, none) ∧
      scriptFunctions envOneTable = (fs, none) ∧
      order.Perm (tables.filter fun t => (scriptTable envOneTable t).2.isNone) ∧
      (dumpDatabase (NewDumper "" 1) envOneTable (fun c => c)).fileContent =
        hdr ++ strConcat (order.map fun t => (scriptTable envOneTable t).1) ++ vs ++ fs ++ ftr :=
  dumpDatabase_layout (NewDumper "" 1) envOneTable (fun c => c)
    (fun c => List.Perm.refl c) rfl

theorem csvWorker_fst_name (env : DBEnv) (t : String) (x : String × String)
    (h : (csvWorker env t).1 = some x) : x.1 = t ++ ".csv" := by
  unfold csvWorker at h
  repeat' split at h
  all_goals try simp_all
  all_goals subst h
  all_goals rfl

theorem csvWorker_prewrite_none (env : DBEnv) (t : String)
    (h : (∃ e, env.getTableDataAsCSV t = .error e) ∨ (env.createCsvFile t).isSome) :
    (csvWorker env t).1 = none := by
  unfold csvWorker
  rcases h with ⟨e, he⟩ | hc
  · simp [he]
  · rcases hcc : env.createCsvFile t with _ | e2
    · rw [hcc] at hc
      simp at hc
    · rcases hg : env.getTableDataAsCSV t with e3 | recs
      · simp [hg]
      · simp [hg, hcc]

theorem runCsvChunks_append_ok (env : DBEnv) (pre rest : List (List String))
    (hpre : ∀ b ∈ pre, (runCsvChunk env b).2 = none) :
    runCsvChunks env (pre ++ rest) =
      ((pre.map fun b => (runCsvChunk env b).1).flatten ++ (runCsvChunks env rest).1,
       (runCsvChunks env rest).2) := by
  induction pre with
  | nil => simp
  | cons c cs ih =>
    have hc := hpre c (by simp)
    have ih2 := ih (fun b hb => hpre b (by simp [hb]))
    rcases hrc : runCsvChunk env c with ⟨files, o⟩
    rw [hrc] at hc
    simp only at hc
    subst hc
    rw [List.cons_append]
    simp only [runCsvChunks, hrc, ih2, List.map_cons, List.flatten_cons, List.append_assoc]

theorem runCsvChunks_fail_head (env : DBEnv) (c : List String) (cs : List (List String))
    (hfail : (runCsvChunk env c).2.isSome) :
    runCsvChunks env (c :: cs) = ((runCsvChunk env c).1, (runCsvChunk env c).2) := by
  rcases hrc : runCsvChunk env c with ⟨files, o⟩
  rcases o with _ | e
  · rw [hrc] at hfail
    simp at hfail
  · simp [runCsvChunks, hrc]

theorem runCsvChunks_ok (env : DBEnv) (cs : List (List String))
    (hok : (runCsvChunks env cs).2 = none) :
    (runCsvChunks env cs).1 = (cs.map fun b => (runCsvChunk env b).1).flatten ∧
    ∀ b ∈ cs, (runCsvChunk env b).2 = none := by
  induction cs with
  | nil => simp [runCsvChunks]
  | cons c l ih =>
    rcases hrc : runCsvChunk env c with ⟨files, o⟩
    rcases o with _ | e
    · have hstep : runCsvChunks env (c :: l) =
          (files ++ (runCsvChunks env l).1, (runCsvChunks env l).2) := by
        simp [runCsvChunks, hrc]
      rw [hstep] at hok ⊢
      obtain ⟨h1, h2⟩ := ih (by simpa using hok)
      refine ⟨by simp [h1, List.flatten_cons, hrc], ?_⟩
      intro b hb
      rcases List.mem_cons.mp hb with h | h
      · subst h
        rw [hrc]
      · exact h2 b h
    · exfalso
      have hstep : runCsvChunks env (c :: l) = (files, some e) := by
        simp [runCsvChunks, hrc]
      rw [hstep] at hok
      simp at hok

theorem runCsvChunks_files_mem (env : DBEnv) (cs : List (List String)) (x : String × String)
    (hx : x ∈ (runCsvChunks env cs).1) : ∃ b ∈ cs, x ∈ (runCsvChunk env b).1 := by
  induction cs with
  | nil => simp [runCsvChunks] at hx
  | cons c l ih =>
    rcases hrc : runCsvChunk env c with ⟨files, o⟩
    rcases o with _ | e
    · rw [show runCsvChunks env (c :: l) =
          (files ++ (runCsvChunks env l).1, (runCsvChunks env l).2) from by
            simp [runCsvChunks, hrc]] at hx
      rcases List.mem_append.mp hx with h | h
      · exact ⟨c, by simp, by rw [hrc]; exact h⟩
      · obtain ⟨b, hb, hxb⟩ := ih h
        exact ⟨b, by simp [hb], hxb⟩
    · rw [show runCsvChunks env (c :: l) = (files, some e) from by
        simp [runCsvChunks, hrc]] at hx
      exact ⟨c, by simp, by rw [hrc]; exact hx⟩

theorem runCsvChunk_files_mem (env : DBEnv) (chunk : List String) (x : String × String)
    (hx : x ∈ (runCsvChunk env chunk).1) :
    ∃ t ∈ chunk, (csvWorker env t).1 = some x := by
  unfold runCsvChunk at hx
  simp only [List.mem_filterMap] at hx
  obtain ⟨t, ht, hsome⟩ := hx
  exact ⟨t, ht, hsome⟩

theorem append_csv_inj (a b : String) (h : a ++ ".csv" = b ++ ".csv") : a = b := by
  have hd : a.data ++ (".csv" : String).data = b.data ++ (".csv" : String).data := by
    rw [← String.data_append, ← String.data_append, h]
  exact String.ext (List.append_cancel_right hd)

/-- C6 (amended): in the CSV path, if a batch contains a failing worker then
the export returns an error, no batch after the failing one contributes any
file, and the failing table's own file is absent whenever its failure happened
before its file write (record fetch or file creation) — but when the failure
happens while writing records, a partially-written file for that table
remains. -/
theorem dumpDBToCSV_failfast (d : Dumper) (env : DBEnv) (tables : List String)
    (pre : List (List String)) (c : List String) (post : List (List String))
    (hopen : env.openErr = none) (hmeta : env.createMetaErr = none)
    (hhdr : ∃ h, env.writeHeaderRes (mkDumpInfo d env) = .ok h)
    (hftr : ∃ f, env.writeFooterRes (mkDumpInfo d env) = .ok f)
    (htab : env.getTablesRes = .ok tables)
    (hnd : tables.Nodup)
    (hsplit : chunkSlice tables d.Parallels = pre ++ c :: post)
    (hpre : ∀ b ∈ pre, (runCsvChunk env b).2 = none)
    (hfail : (runCsvChunk env c).2.isSome) :
    (dumpDBToCSV d env).error.isSome ∧
    (dumpDBToCSV d env).files =
      (pre.map fun b => (runCsvChunk env b).1).flatten ++ (runCsvChunk env c).1 ∧
    (∀ t ∈ c, ((∃ e, env.getTableDataAsCSV t = .error e) ∨ (env.createCsvFile t).isSome) →
      ∀ content, (t ++ ".csv", content) ∉ (dumpDBToCSV d env).files) := by
  obtain ⟨hdr, hh⟩ := hhdr
  obtain ⟨ftr, hf⟩ := hftr
  have hout : dumpDBToCSV d env =
      { metadata := hdr ++ ftr,
        files := (pre.map fun b => (runCsvChunk env b).1).flatten ++ (runCsvChunk env c).1,
        error := (runCsvChunk env c).2 } := by
    simp only [dumpDBToCSV, hopen, hmeta, hh, hf, htab, hsplit]
    rw [runCsvChunks_append_ok env pre (c :: post) hpre,
      runCsvChunks_fail_head env c post hfail]
  refine ⟨by rw [hout]; exact hfail, by rw [hout], ?_⟩
  intro t htc hprew content hmem
  rw [hout] at hmem
  simp only [List.mem_append] at hmem
  have hwnone : (csvWorker env t).1 = none := csvWorker_prewrite_none env t hprew
  rcases hmem with hmem | hmem
  · obtain ⟨fl, hfl, hxfl⟩ := List.mem_flatten.mp hmem
    obtain ⟨b, hb, hbeq⟩ := List.mem_map.mp hfl
    subst hbeq
    obtain ⟨t2, ht2, hw2⟩ := runCsvChunk_files_mem env b _ hxfl
    have hname := csvWorker_fst_name env t2 _ hw2
    have ht2t : t2 = t := append_csv_inj t2 t hname.symm
    subst ht2t
    have htflat : tables = (pre ++ c :: post).flatten := by
      rw [← hsplit, chunkSlice_join]
    rw [htflat] at hnd
    rw [List.flatten_append] at hnd
    obtain ⟨_, _, hdisj⟩ := List.nodup_append.mp hnd
    exact hdisj (List.mem_flatten.mpr ⟨b, hb, ht2⟩)
      (by simp only [List.flatten_cons]; exact List.mem_append.mpr (Or.inl htc))
  · obtain ⟨t2, ht2, hw2⟩ := runCsvChunk_files_mem env c _ hmem
    have hname := csvWorker_fst_name env t2 _ hw2
    have ht2t : t2 = t := append_csv_inj t2 t hname.symm
    subst ht2t
    rw [hwnone] at hw2
    exact Option.noConfusion hw2

/-- C6 witness: a one-table export whose record fetch fails: the export
aborts, only the failing batch's files exist, and the failing table's file is
absent. -/
theorem dumpDBToCSV_failfast_witness :
    (dumpDBToCSV (NewDumper "" 1) envCsvFetchFail).error.isSome ∧
    (dumpDBToCSV (NewDumper "" 1) envCsvFetchFail).files =
      (([] : List (List String)).map fun b => (runCsvChunk envCsvFetchFail b).1).flatten ++
        (runCsvChunk envCsvFetchFail ["t"]).1 ∧
    (∀ t ∈ ["t"],
      ((∃ e, envCsvFetchFail.getTableDataAsCSV t = .error e) ∨
        (envCsvFetchFail.createCsvFile t).isSome) →
      ∀ content, (t ++ ".csv", content) ∉ (dumpDBToCSV (NewDumper "" 1) envCsvFetchFail).files) :=
  dumpDBToCSV_failfast (NewDumper "" 1) envCsvFetchFail ["t"] [] ["t"] []
    rfl rfl ⟨"-- header\n", rfl⟩ ⟨"-- footer\n", rfl⟩ rfl (by decide)
    (by simp [NewDumper, chunkSlice, chunkSliceAux]) (by simp) (by decide)

/-- C6 counterexample: a table whose record write fails after its file was
created: the export aborts but the failing table's file exists with the
partially-written content, so "absent or not created" does not hold. -/
theorem C6_counterexample :
    (dumpDBToCSV (NewDumper "" 1) envCsvWriteFail).error = some "boom" ∧
    ("t.csv", "partial") ∈ (dumpDBToCSV (NewDumper "" 1) envCsvWriteFail).files := by
  have h : dumpDBToCSV (NewDumper "" 1) envCsvWriteFail =
      { metadata := "-- header\n" ++ "-- footer\n",
        files := [("t" ++ ".csv", "partial")], error := some "boom" } := by
    simp [dumpDBToCSV, NewDumper, envCsvWriteFail, trivEnv, mkDumpInfo, chunkSlice,
      chunkSliceAux, runCsvChunks, runCsvChunk, csvWorker]
  rw [h]
  refine ⟨rfl, by simp⟩

/-- C7: the CSV metadata file holds exactly the header immediately followed by
the footer — independently of every table's records, so no row data ever
reaches it —, every file in the destination directory is named after one of
the listed tables with a `.csv` extension and holds what that table's worker
wrote, and on a fully successful export every successful worker's file is
present. -/
theorem dumpDBToCSV_metadata (d : Dumper) (env : DBEnv) (hdr ftr : String)
    (hopen : env.openErr = none) (hmeta : env.createMetaErr = none)
    (hh : env.writeHeaderRes (mkDumpInfo d env) = .ok hdr)
    (hf : env.writeFooterRes (mkDumpInfo d env) = .ok ftr) :
    (dumpDBToCSV d env).metadata = hdr ++ ftr ∧
    (∀ tables, env.getTablesRes = .ok tables →
      ∀ x ∈ (dumpDBToCSV d env).files,
        ∃ t ∈ tables, x.1 = t ++ ".csv" ∧ (csvWorker env t).1 = some x) ∧
    (∀ tables, env.getTablesRes = .ok tables → (dumpDBToCSV d env).error = none →
      ∀ t ∈ tables, ∀ x, (csvWorker env t).1 = some x → x ∈ (dumpDBToCSV d env).files) := by
  refine ⟨?_, ?_, ?_⟩
  · rcases ht : env.getTablesRes with e | tables
    · simp [dumpDBToCSV, hopen, hmeta, hh, hf, ht]
    · simp [dumpDBToCSV, hopen, hmeta, hh, hf, ht]
  · intro tables ht x hx
    have hfiles : (dumpDBToCSV d env).files =
        (runCsvChunks env (chunkSlice tables d.Parallels)).1 := by
      simp [dumpDBToCSV, hopen, hmeta, hh, hf, ht]
    rw [hfiles] at hx
    obtain ⟨b, hb, hxb⟩ := runCsvChunks_files_mem env _ x hx
    obtain ⟨t, htb, hw⟩ := runCsvChunk_files_mem env b x hxb
    refine ⟨t, ?_, csvWorker_fst_name env t x hw, hw⟩
    have : t ∈ (chunkSlice tables d.Parallels).flatten := List.mem_flatten.mpr ⟨b, hb, htb⟩
    rwa [chunkSlice_join] at this
  · intro tables ht herr t htt x hw
    have hfiles : (dumpDBToCSV d env).files =
        (runCsvChunks env (chunkSlice tables d.Parallels)).1 := by
      simp [dumpDBToCSV, hopen, hmeta, hh, hf, ht]
    have herr2 : (runCsvChunks env (chunkSlice tables d.Parallels)).2 = none := by
      have : (dumpDBToCSV d env).error =
          (runCsvChunks env (chunkSlice tables d.Parallels)).2 := by
        simp [dumpDBToCSV, hopen, hmeta, hh, hf, ht]
      rwa [this] at herr
    obtain ⟨h1, _⟩ := runCsvChunks_ok env _ herr2
    rw [hfiles, h1]
    have htfl : t ∈ (chunkSlice tables d.Parallels).flatten := by
      rw [chunkSlice_join]
      exact htt
    obtain ⟨b, hb, htb⟩ := List.mem_flatten.mp htfl
    refine List.mem_flatten.mpr ⟨(runCsvChunk env b).1, List.mem_map.mpr ⟨b, hb, rfl⟩, ?_⟩
    unfold runCsvChunk
    exact List.mem_filterMap.mpr ⟨t, htb, hw⟩

/-- C7 witness: a one-table export in which everything succeeds. -/
theorem dumpDBToCSV_metadata_witness :
    (dumpDBToCSV (NewDumper "" 1) envOneTable).metadata = "-- header\n" ++ "-- footer\n" ∧
    (∀ tables, envOneTable.getTablesRes = .ok tables →
      ∀ x ∈ (dumpDBToCSV (NewDumper "" 1) envOneTable).files,
        ∃ t ∈ tables, x.1 = t ++ ".csv" ∧ (csvWorker envOneTable t).1 = some x) ∧
    (∀ tables, envOneTable.getTablesRes = .ok tables →
      (dumpDBToCSV (NewDumper "" 1) envOneTable).error = none →
      ∀ t ∈ tables, ∀ x, (csvWorker envOneTable t).1 = some x →
        x ∈ (dumpDBToCSV (NewDumper "" 1) envOneTable).files) :=
  dumpDBToCSV_metadata (NewDumper "" 1) envOneTable "-- header\n" "-- footer\n"
    rfl rfl rfl rfl

theorem writerInv_init (n : Nat) (pieces : Fin n → List String) :
    WriterInv n pieces (WriterInit n pieces) := by
  refine ⟨[], List.nodup_nil, ?_, ?_, ?_⟩
  · intro i
    simp [WriterInit]
  · intro i _
    rfl
  · exact ⟨fun i => by simp [WriterInit], rfl⟩

theorem writerInv_step (n : Nat) (pieces : Fin n → List String) (s s' : WriterSys n)
    (hst : WriterStep n s s') (hinv : WriterInv n pieces s) : WriterInv n pieces s' := by
  obtain ⟨ds, hnd, hdone, hidle, hlock⟩ := hinv
  cases hst with
  | acquire i h1 h2 =>
    dsimp only [WriterInv]
    rw [h1] at hlock
    obtain ⟨hnw, hout⟩ := hlock
    have hinotds : i ∉ ds := fun hmem => by
      have hcon := (hdone i).mpr hmem
      rw [h2] at hcon
      exact WStatus.noConfusion hcon
    refine ⟨ds, hnd, ?_, ?_, ?_⟩
    · intro k
      by_cases hk : k = i
      · subst hk
        simp only [Function.update_same]
        constructor
        · intro hcon
          exact absurd hcon (by simp)
        · intro hmem
          exact absurd hmem hinotds
      · simp only [Function.update_noteq hk]
        exact hdone k
    · intro k hkidle
      by_cases hk : k = i
      · subst hk
        rw [Function.update_same] at hkidle
        exact absurd hkidle (by simp)
      · rw [Function.update_noteq hk] at hkidle
        exact hidle k hkidle
    · refine ⟨by rw [Function.update_same], ?_, [], ?_, ?_⟩
      · intro k hk
        rw [Function.update_noteq hk]
        exact hnw k
      · rw [List.nil_append]
        exact (hidle i h2).symm
      · simpa using hout
  | write i p rest h1 h2 =>
    dsimp only [WriterInv]
    rw [h1] at hlock
    obtain ⟨hwj, hnwo, w, hw, hout⟩ := hlock
    refine ⟨ds, hnd, fun k => hdone k, ?_, ?_⟩
    · intro k hkidle
      have hk : k ≠ i := fun hki => by
        subst hki
        rw [hkidle] at hwj
        exact WStatus.noConfusion hwj
      rw [Function.update_noteq hk]
      exact hidle k hkidle
    · rw [h1]
      refine ⟨hwj, hnwo, w ++ [p], ?_, ?_⟩
      · rw [Function.update_same, List.append_assoc, List.singleton_append, ← h2]
        exact hw
      · rw [hout, List.map_append, List.append_assoc]
        rfl
  | release i h1 h2 =>
    dsimp only [WriterInv]
    rw [h1] at hlock
    obtain ⟨hwj, hnwo, w, hw, hout⟩ := hlock
    have hinotds : i ∉ ds := fun hmem => by
      have hcon := (hdone i).mpr hmem
      rw [hwj] at hcon
      exact WStatus.noConfusion hcon
    have hwpieces : pieces i = w := by
      rw [hw, h2, List.append_nil]
    refine ⟨ds ++ [i], ?_, ?_, ?_, ?_⟩
    · refine List.nodup_append.mpr ⟨hnd, by simp, ?_⟩
      intro a ha hai
      rw [List.mem_singleton] at hai
      subst hai
      exact hinotds ha
    · intro k
      by_cases hk : k = i
      · subst hk
        simp [Function.update_same]
      · simp only [Function.update_noteq hk, List.mem_append, List.mem_singleton, hk,
          or_false]
        exact hdone k
    · intro k hkidle
      by_cases hk : k = i
      · subst hk
        rw [Function.update_same] at hkidle
        exact absurd hkidle (by simp)
      · rw [Function.update_noteq hk] at hkidle
        exact hidle k hkidle
    · refine ⟨?_, ?_⟩
      · intro k
        by_cases hk : k = i
        · subst hk
          rw [Function.update_same]
          simp
        · rw [Function.update_noteq hk]
          exact hnwo k hk
      · rw [hout, List.map_append, List.flatten_append]
        simp [writerBlock, hwpieces]

theorem writerInv_reachable (n : Nat) (pieces : Fin n → List String) (s : WriterSys n)
    (htr : Relation.ReflTransGen (WriterStep n) (WriterInit n pieces) s) :
    WriterInv n pieces s := by
  induction htr with
  | refl => exact writerInv_init n pieces
  | tail _ hstep ih => exact writerInv_step n pieces _ _ hstep ih

/-- C8: under the mutex discipline of the schema-dump workers — each worker
writes its whole block inside one lock-protected critical section — every
complete run of any number of concurrent workers, whatever the interleaving,
produces an output that is the concatenation of the workers' full blocks in
some order: each worker's block appears contiguously, never interleaved with
another worker's bytes. -/
theorem writer_exclusive (n : Nat) (pieces : Fin n → List String) (s : WriterSys n)
    (htr : Relation.ReflTransGen (WriterStep n) (WriterInit n pieces) s)
    (hdone : ∀ i, s.status i = WStatus.done) :
    ∃ order : List (Fin n), order.Perm (List.finRange n) ∧
      s.out = (order.map (writerBlock n pieces)).flatten := by
  obtain ⟨ds, hnd, hdn, _, hlock⟩ := writerInv_reachable n pieces s htr
  rcases hl : s.lock with _ | j
  · rw [hl] at hlock
    obtain ⟨_, hout⟩ := hlock
    refine ⟨ds, ?_, hout⟩
    refine (List.perm_ext_iff_of_nodup hnd (List.nodup_finRange n)).mpr ?_
    intro a
    simp only [List.mem_finRange, iff_true]
    exact (hdn a).mp (hdone a)
  · rw [hl] at hlock
    have hj := hlock.1
    rw [hdone j] at hj
    exact WStatus.noConfusion hj

/-- C8 witness: one worker writing the single piece "A" through an explicit
acquire-write-release trace. -/
theorem writer_exclusive_witness :
    ∃ order : List (Fin 1), order.Perm (List.finRange 1) ∧
      ([((0 : Fin 1), "A")] : List (Fin 1 × String)) =
        (order.map (writerBlock 1 (fun _ => ["A"]))).flatten := by
  have h1 : WriterStep 1 (WriterInit 1 (fun _ => ["A"])) wSysA :=
    WriterStep.acquire _ 0 rfl rfl
  have h2 : WriterStep 1 wSysA wSysB :=
    WriterStep.write _ 0 "A" [] rfl rfl
  have h3 : WriterStep 1 wSysB wSysC :=
    WriterStep.release _ 0 rfl rfl
  have htr := Relation.ReflTransGen.tail
    (Relation.ReflTransGen.tail (Relation.ReflTransGen.single h1) h2) h3
  have hfin := writer_exclusive 1 (fun _ => ["A"]) wSysC htr (by decide)
  exact hfin
